import Mathlib

/-!
Verification of the social-program client (src/main.rs): the Borsh wire
codec for the record and instruction types, the follow/unfollow/post
operations on the stored records, and the program-derived-address search.

Bytes are modelled as `Fin 256`; a wire buffer is a `List Byte`.
Machine integers (u16, u32, u64) are modelled as `Nat` with explicit
`% 2 ^ w` at the points where the Rust code performs a cast.
-/

namespace Social

abbrev Byte := Fin 256

/-- Decode-time failures, the taxonomy of spec section 7. -/
inductive DecodeError where
  | TruncatedInput
  | InvalidEncoding
  | UnknownVariant
deriving DecidableEq

/-- Result of a decoding step: a value or a `DecodeError`. -/
inductive DecodeResult (α : Type) where
  | ok (value : α)
  | error (err : DecodeError)
deriving DecidableEq

/-- Sequencing of decoding steps; an error aborts the whole decode. -/
def DecodeResult.bind {α β : Type} : DecodeResult α → (α → DecodeResult β) → DecodeResult β
  | .ok a, f => f a
  | .error e, _ => .error e

@[simp] theorem DecodeResult.bind_ok {α β : Type} (a : α) (f : α → DecodeResult β) :
    DecodeResult.bind (.ok a) f = f a := rfl

@[simp] theorem DecodeResult.bind_error {α β : Type} (e : DecodeError) (f : α → DecodeResult β) :
    DecodeResult.bind (.error e) f = .error e := rfl

/-- Little-endian encoding of `n` into `k` bytes (Borsh fixed-width integers). -/
def encodeLE : Nat → Nat → List Byte
  | 0, _ => []
  | k + 1, n => ⟨n % 256, by omega⟩ :: encodeLE k (n / 256)

/-- Little-endian decoding of `k` bytes into a `Nat`, returning the rest of
the stream; fails with `TruncatedInput` when fewer than `k` bytes remain. -/
def decodeLE : Nat → List Byte → DecodeResult (Nat × List Byte)
  | 0, s => .ok (0, s)
  | _ + 1, [] => .error .TruncatedInput
  | k + 1, b :: s =>
      (decodeLE k s).bind fun (v, rest) => .ok (b.val + 256 * v, rest)

@[simp] theorem encodeLE_length (k n : Nat) : (encodeLE k n).length = k := by
  induction k generalizing n with
  | zero => rfl
  | succ k ih => simp [encodeLE, ih]

theorem decodeLE_encodeLE (k : Nat) (n : Nat) (rest : List Byte) :
    decodeLE k (encodeLE k n ++ rest) = .ok (n % 256 ^ k, rest) := by
  induction k generalizing n with
  | zero => simp [encodeLE, decodeLE, Nat.mod_one]
  | succ k ih =>
      have h1 : n % 256 + 256 * (n / 256 % 256 ^ k) = n % 256 ^ (k + 1) := by
        rw [pow_succ']
        have hd : n % (256 * 256 ^ k) / 256 = n / 256 % 256 ^ k :=
          Nat.mod_mul_right_div_self n 256 (256 ^ k)
        have hm : n % (256 * 256 ^ k) % 256 = n % 256 :=
          Nat.mod_mod_of_dvd n ⟨256 ^ k, rfl⟩
        omega
      show decodeLE (k + 1) (⟨n % 256, by omega⟩ :: (encodeLE k (n / 256) ++ rest)) = _
      rw [decodeLE, ih, DecodeResult.bind_ok]
      show DecodeResult.ok (n % 256 + 256 * (n / 256 % 256 ^ k), rest) =
        DecodeResult.ok (n % 256 ^ (k + 1), rest)
      rw [h1]

theorem decodeLE_encodeLE_of_lt {k n : Nat} (h : n < 256 ^ k) (rest : List Byte) :
    decodeLE k (encodeLE k n ++ rest) = .ok (n, rest) := by
  rw [decodeLE_encodeLE, Nat.mod_eq_of_lt h]

/-- Read `k` raw bytes from the stream; `TruncatedInput` when fewer remain. -/
def readBytes (k : Nat) (s : List Byte) : DecodeResult (List Byte × List Byte) :=
  if s.length < k then .error .TruncatedInput else .ok (s.take k, s.drop k)

theorem readBytes_append (bs rest : List Byte) :
    readBytes bs.length (bs ++ rest) = .ok (bs, rest) := by
  unfold readBytes
  rw [if_neg (by simp)]
  simp

/-- True for a byte in the UTF-8 continuation range 0x80 to 0xBF. -/
def contByte (b : Byte) : Bool := 0x80 ≤ b.val && b.val ≤ 0xBF

/-- UTF-8 validity of a byte sequence, following the checks that the Rust
standard library performs when rebuilding a `String` from raw bytes (as the
Borsh string decoder does): ASCII, well-formed 2-, 3- and 4-byte sequences,
no overlong forms, no surrogates, no code points above 0x10FFFF. -/
def utf8Valid : List Byte → Bool
  | [] => true
  | b :: rest =>
    if b.val < 0x80 then utf8Valid rest
    else if b.val < 0xC2 then false
    else if b.val < 0xE0 then
      match rest with
      | b1 :: rest2 => contByte b1 && utf8Valid rest2
      | [] => false
    else if b.val < 0xF0 then
      match rest with
      | b1 :: b2 :: rest3 =>
          (if b.val = 0xE0 then 0xA0 ≤ b1.val && b1.val ≤ 0xBF
           else if b.val = 0xED then 0x80 ≤ b1.val && b1.val ≤ 0x9F
           else contByte b1) && contByte b2 && utf8Valid rest3
      | _ => false
    else if b.val < 0xF5 then
      match rest with
      | b1 :: b2 :: b3 :: rest4 =>
          (if b.val = 0xF0 then 0x90 ≤ b1.val && b1.val ≤ 0xBF
           else if b.val = 0xF4 then 0x80 ≤ b1.val && b1.val ≤ 0x8F
           else contByte b1) && contByte b2 && contByte b3 && utf8Valid rest4
      | _ => false
    else false

/-- A Rust `String`: a byte sequence that is valid UTF-8. -/
def RString := { l : List Byte // utf8Valid l = true }

instance : DecidableEq RString := Subtype.instDecidableEq

/-- A Solana public key: 32 raw bytes. -/
def Pubkey := { l : List Byte // l.length = 32 }

instance : DecidableEq Pubkey := Subtype.instDecidableEq

/-! ## Data model (src/main.rs, struct and enum declarations) -/

/-- Rust struct UserProfile: data_len is u16, follows is Vec of Pubkey. -/
structure UserProfile where
  data_len : Nat
  follows : List Pubkey
deriving DecidableEq

/-- Rust struct Post: content is String, timestamp is u64. -/
structure Post where
  content : RString
  timestamp : Nat
deriving DecidableEq

/-- Rust struct UserPost: post_count is u64, posts is Vec of Post. -/
structure UserPost where
  post_count : Nat
  posts : List Post
deriving DecidableEq

/-- Rust enum SocialInstruction, six variants in declaration order. -/
inductive SocialInstruction where
  | initializeUser (seed_type : RString)
  | followUser (user_to_follow : Pubkey)
  | unfollowUser (user_to_unfollow : Pubkey)
  | queryFollower
  | postContent (content : RString)
  | queryPosts
deriving DecidableEq

/-! ## Operations (impl blocks in src/main.rs) -/

/-- UserProfile::new. -/
def UserProfile.new : UserProfile := { data_len := 0, follows := [] }

/-- UserProfile::follow: push the user, then data_len = follows.len() as u16. -/
def UserProfile.follow (p : UserProfile) (user : Pubkey) : UserProfile :=
  let follows := p.follows ++ [user]
  { data_len := follows.length % 2 ^ 16, follows := follows }

/-- UserProfile::un_follow: retain entries different from the user, then
data_len = follows.len() as u16. -/
def UserProfile.un_follow (p : UserProfile) (user : Pubkey) : UserProfile :=
  let follows := p.follows.filter (fun x => x != user)
  { data_len := follows.length % 2 ^ 16, follows := follows }

/-- Post::new. -/
def Post.new (content : RString) (timestamp : Nat) : Post :=
  { content := content, timestamp := timestamp }

/-- UserPost::new. -/
def UserPost.new : UserPost := { post_count := 0, posts := [] }

/-- UserPost::post: push the post, then post_count = posts.len() as u64. -/
def UserPost.post (u : UserPost) (p : Post) : UserPost :=
  let posts := u.posts ++ [p]
  { post_count := posts.length % 2 ^ 64, posts := posts }

/-- UserPost::query_posts. -/
def UserPost.query_posts (u : UserPost) : List Post := u.posts

/-! ## Borsh codec

Modelled from the spec: the Borsh wire rules restated in spec sections 4.2,
4.3 and 6 for the derived BorshSerialize and BorshDeserialize instances —
fixed-width little-endian integers, u32-length-prefixed sequences and UTF-8
text, a one-byte leading tag for enums in declaration order, and the decode
error taxonomy TruncatedInput, InvalidEncoding, UnknownVariant. -/

/-- Borsh encoding of a Pubkey: its 32 raw bytes. -/
def encodePubkey (p : Pubkey) : List Byte := p.val

/-- Borsh decoding of a Pubkey: read 32 raw bytes. -/
def decodePubkey (s : List Byte) : DecodeResult (Pubkey × List Byte) :=
  if h : s.length < 32 then .error .TruncatedInput
  else .ok (⟨s.take 32, by rw [List.length_take]; omega⟩, s.drop 32)

/-- Borsh encoding of a String: u32-LE byte length, then the UTF-8 bytes. -/
def encodeString (s : RString) : List Byte := encodeLE 4 s.val.length ++ s.val

/-- Borsh decoding of a String: read the u32-LE length, take that many
bytes, and check UTF-8 validity (InvalidEncoding on failure). -/
def decodeString (s : List Byte) : DecodeResult (RString × List Byte) :=
  (decodeLE 4 s).bind fun (n, r) =>
    (readBytes n r).bind fun (bs, r2) =>
      if h : utf8Valid bs = true then .ok (⟨bs, h⟩, r2) else .error .InvalidEncoding

/-- Borsh encoding of a Vec: u32-LE element count, then the elements. -/
def encodeVec {α : Type} (enc : α → List Byte) (l : List α) : List Byte :=
  encodeLE 4 l.length ++ (l.map enc).flatten

/-- Decode `k` consecutive elements with `dec`. -/
def decodeItems {α : Type} (dec : List Byte → DecodeResult (α × List Byte)) :
    Nat → List Byte → DecodeResult (List α × List Byte)
  | 0, s => .ok ([], s)
  | k + 1, s =>
      (dec s).bind fun (a, r) =>
        (decodeItems dec k r).bind fun (l, r2) => .ok (a :: l, r2)

/-- Borsh decoding of a Vec: read the u32-LE count, then that many elements. -/
def decodeVec {α : Type} (dec : List Byte → DecodeResult (α × List Byte))
    (s : List Byte) : DecodeResult (List α × List Byte) :=
  (decodeLE 4 s).bind fun (n, r) => decodeItems dec n r

/-- Run a stream decoder on a whole buffer, requiring full consumption, as
Borsh try_from_slice does; leftover bytes are an encoding error. -/
def decodeFull {α : Type} (dec : List Byte → DecodeResult (α × List Byte))
    (s : List Byte) : DecodeResult α :=
  (dec s).bind fun (a, rest) =>
    match rest with
    | [] => .ok a
    | _ :: _ => .error .InvalidEncoding

/-- Borsh encoding of UserProfile: data_len as u16-LE, then follows. -/
def UserProfile.encode (u : UserProfile) : List Byte :=
  encodeLE 2 u.data_len ++ encodeVec encodePubkey u.follows

/-- Streaming Borsh decoder for UserProfile. -/
def UserProfile.decodeStream (s : List Byte) : DecodeResult (UserProfile × List Byte) :=
  (decodeLE 2 s).bind fun (d, r) =>
    (decodeVec decodePubkey r).bind fun (f, r2) =>
      .ok ({ data_len := d, follows := f }, r2)

/-- Whole-buffer Borsh decoder for UserProfile. -/
def UserProfile.decode (s : List Byte) : DecodeResult UserProfile :=
  decodeFull UserProfile.decodeStream s

/-- Borsh encoding of Post: content, then timestamp as u64-LE. -/
def Post.encode (p : Post) : List Byte :=
  encodeString p.content ++ encodeLE 8 p.timestamp

/-- Streaming Borsh decoder for Post. -/
def Post.decodeStream (s : List Byte) : DecodeResult (Post × List Byte) :=
  (decodeString s).bind fun (c, r) =>
    (decodeLE 8 r).bind fun (t, r2) =>
      .ok ({ content := c, timestamp := t }, r2)

/-- Whole-buffer Borsh decoder for Post. -/
def Post.decode (s : List Byte) : DecodeResult Post :=
  decodeFull Post.decodeStream s

/-- Borsh encoding of UserPost: post_count as u64-LE, then posts. -/
def UserPost.encode (u : UserPost) : List Byte :=
  encodeLE 8 u.post_count ++ encodeVec Post.encode u.posts

/-- Streaming Borsh decoder for UserPost. -/
def UserPost.decodeStream (s : List Byte) : DecodeResult (UserPost × List Byte) :=
  (decodeLE 8 s).bind fun (c, r) =>
    (decodeVec Post.decodeStream r).bind fun (ps, r2) =>
      .ok ({ post_count := c, posts := ps }, r2)

/-- Whole-buffer Borsh decoder for UserPost. -/
def UserPost.decode (s : List Byte) : DecodeResult UserPost :=
  decodeFull UserPost.decodeStream s

/-- Borsh encoding of SocialInstruction: one tag byte in declaration order
(InitializeUser = 0 through QueryPosts = 5), then the variant payload. -/
def SocialInstruction.encode : SocialInstruction → List Byte
  | .initializeUser seed_type => 0 :: encodeString seed_type
  | .followUser user_to_follow => 1 :: encodePubkey user_to_follow
  | .unfollowUser user_to_unfollow => 2 :: encodePubkey user_to_unfollow
  | .queryFollower => [3]
  | .postContent content => 4 :: encodeString content
  | .queryPosts => [5]

/-- Streaming Borsh decoder for SocialInstruction: read the tag byte and
dispatch; tags 6 to 255 are UnknownVariant. -/
def SocialInstruction.decodeStream (s : List Byte) :
    DecodeResult (SocialInstruction × List Byte) :=
  match s with
  | [] => .error .TruncatedInput
  | t :: r =>
    if t.val = 0 then
      (decodeString r).bind fun (st, r2) => .ok (.initializeUser st, r2)
    else if t.val = 1 then
      (decodePubkey r).bind fun (u, r2) => .ok (.followUser u, r2)
    else if t.val = 2 then
      (decodePubkey r).bind fun (u, r2) => .ok (.unfollowUser u, r2)
    else if t.val = 3 then .ok (.queryFollower, r)
    else if t.val = 4 then
      (decodeString r).bind fun (c, r2) => .ok (.postContent c, r2)
    else if t.val = 5 then .ok (.queryPosts, r)
    else .error .UnknownVariant

/-- Whole-buffer Borsh decoder for SocialInstruction. -/
def SocialInstruction.decode (s : List Byte) : DecodeResult SocialInstruction :=
  decodeFull SocialInstruction.decodeStream s

/-! ## Codec round-trip lemmas -/

theorem decodePubkey_encodePubkey (p : Pubkey) (rest : List Byte) :
    decodePubkey (encodePubkey p ++ rest) = .ok (p, rest) := by
  unfold decodePubkey encodePubkey
  have hlen : (p.val ++ rest).length = 32 + rest.length := by simp [p.property]
  rw [dif_neg (by omega)]
  have ht := @List.take_left' _ p.val rest 32 p.property
  have hd := @List.drop_left' _ p.val rest 32 p.property
  simp [Prod.ext_iff, Subtype.ext_iff, ht, hd]

theorem pow256_4 : (256 : Nat) ^ 4 = 2 ^ 32 := by norm_num

theorem pow256_2 : (256 : Nat) ^ 2 = 2 ^ 16 := by norm_num

theorem pow256_8 : (256 : Nat) ^ 8 = 2 ^ 64 := by norm_num

theorem decodeString_encodeString (s : RString) (h : s.val.length < 2 ^ 32)
    (rest : List Byte) :
    decodeString (encodeString s ++ rest) = .ok (s, rest) := by
  unfold decodeString encodeString
  rw [List.append_assoc, decodeLE_encodeLE_of_lt (by rw [pow256_4]; exact h),
    DecodeResult.bind_ok]
  show (readBytes s.val.length (s.val ++ rest)).bind _ = _
  rw [readBytes_append, DecodeResult.bind_ok]
  show (if h : utf8Valid s.val = true then _ else _) = _
  rw [dif_pos s.property]
  simp [Prod.ext_iff, Subtype.ext_iff]

theorem decodeItems_encode {α : Type} (enc : α → List Byte)
    (dec : List Byte → DecodeResult (α × List Byte)) (l : List α)
    (hdec : ∀ a ∈ l, ∀ r, dec (enc a ++ r) = .ok (a, r)) (rest : List Byte) :
    decodeItems dec l.length ((l.map enc).flatten ++ rest) = .ok (l, rest) := by
  induction l with
  | nil => simp [decodeItems]
  | cons a l ih =>
      simp only [List.map_cons, List.flatten_cons, List.length_cons, List.append_assoc]
      rw [decodeItems, hdec a (by simp) _, DecodeResult.bind_ok]
      show ((decodeItems dec l.length ((l.map enc).flatten ++ rest)).bind fun (x, r2) =>
        DecodeResult.ok (a :: x, r2)) = _
      rw [ih (fun x hx r => hdec x (by simp [hx]) r), DecodeResult.bind_ok]

theorem decodeVec_encodeVec {α : Type} (enc : α → List Byte)
    (dec : List Byte → DecodeResult (α × List Byte)) (l : List α)
    (hdec : ∀ a ∈ l, ∀ r, dec (enc a ++ r) = .ok (a, r))
    (hlen : l.length < 2 ^ 32) (rest : List Byte) :
    decodeVec dec (encodeVec enc l ++ rest) = .ok (l, rest) := by
  unfold decodeVec encodeVec
  rw [List.append_assoc, decodeLE_encodeLE_of_lt (by rw [pow256_4]; exact hlen),
    DecodeResult.bind_ok]
  exact decodeItems_encode enc dec l hdec rest

theorem userProfileStream_roundtrip (u : UserProfile) (hd : u.data_len < 2 ^ 16)
    (hf : u.follows.length < 2 ^ 32) (rest : List Byte) :
    UserProfile.decodeStream (u.encode ++ rest) = .ok (u, rest) := by
  unfold UserProfile.decodeStream UserProfile.encode
  rw [List.append_assoc, decodeLE_encodeLE_of_lt (by rw [pow256_2]; exact hd),
    DecodeResult.bind_ok]
  show (decodeVec decodePubkey (encodeVec encodePubkey u.follows ++ rest)).bind _ = _
  rw [decodeVec_encodeVec encodePubkey decodePubkey u.follows
    (fun a _ r => decodePubkey_encodePubkey a r) hf rest, DecodeResult.bind_ok]

theorem userProfileDecode_roundtrip (u : UserProfile) (hd : u.data_len < 2 ^ 16)
    (hf : u.follows.length < 2 ^ 32) :
    UserProfile.decode u.encode = .ok u := by
  unfold UserProfile.decode decodeFull
  rw [← List.append_nil u.encode, userProfileStream_roundtrip u hd hf [],
    DecodeResult.bind_ok]

theorem postStream_roundtrip (p : Post) (hc : p.content.val.length < 2 ^ 32)
    (ht : p.timestamp < 2 ^ 64) (rest : List Byte) :
    Post.decodeStream (p.encode ++ rest) = .ok (p, rest) := by
  unfold Post.decodeStream Post.encode
  rw [List.append_assoc, decodeString_encodeString p.content hc, DecodeResult.bind_ok]
  show (decodeLE 8 (encodeLE 8 p.timestamp ++ rest)).bind _ = _
  rw [decodeLE_encodeLE_of_lt (by rw [pow256_8]; exact ht), DecodeResult.bind_ok]

theorem postDecode_roundtrip (p : Post) (hc : p.content.val.length < 2 ^ 32)
    (ht : p.timestamp < 2 ^ 64) :
    Post.decode p.encode = .ok p := by
  unfold Post.decode decodeFull
  rw [← List.append_nil p.encode, postStream_roundtrip p hc ht [],
    DecodeResult.bind_ok]

theorem userPostStream_roundtrip (u : UserPost) (hc : u.post_count < 2 ^ 64)
    (hl : u.posts.length < 2 ^ 32)
    (hp : ∀ p ∈ u.posts, p.content.val.length < 2 ^ 32 ∧ p.timestamp < 2 ^ 64)
    (rest : List Byte) :
    UserPost.decodeStream (u.encode ++ rest) = .ok (u, rest) := by
  unfold UserPost.decodeStream UserPost.encode
  rw [List.append_assoc, decodeLE_encodeLE_of_lt (by rw [pow256_8]; exact hc),
    DecodeResult.bind_ok]
  show (decodeVec Post.decodeStream (encodeVec Post.encode u.posts ++ rest)).bind _ = _
  rw [decodeVec_encodeVec Post.encode Post.decodeStream u.posts
    (fun a ha r => postStream_roundtrip a (hp a ha).1 (hp a ha).2 r) hl rest,
    DecodeResult.bind_ok]

theorem userPostDecode_roundtrip (u : UserPost) (hc : u.post_count < 2 ^ 64)
    (hl : u.posts.length < 2 ^ 32)
    (hp : ∀ p ∈ u.posts, p.content.val.length < 2 ^ 32 ∧ p.timestamp < 2 ^ 64) :
    UserPost.decode u.encode = .ok u := by
  unfold UserPost.decode decodeFull
  rw [← List.append_nil u.encode, userPostStream_roundtrip u hc hl hp [],
    DecodeResult.bind_ok]

/-- String payload lengths of an instruction are below the u32 limit; the
only constraint a Rust value of the enum can violate in the model. -/
def SocialInstruction.wf : SocialInstruction → Prop
  | .initializeUser seed_type => seed_type.val.length < 2 ^ 32
  | .followUser _ => True
  | .unfollowUser _ => True
  | .queryFollower => True
  | .postContent content => content.val.length < 2 ^ 32
  | .queryPosts => True

theorem instructionStream_roundtrip (i : SocialInstruction) (h : i.wf)
    (rest : List Byte) :
    SocialInstruction.decodeStream (i.encode ++ rest) = .ok (i, rest) := by
  cases i with
  | initializeUser seed_type =>
      show SocialInstruction.decodeStream ((0 : Byte) :: (encodeString seed_type ++ rest)) = _
      rw [SocialInstruction.decodeStream, decodeString_encodeString seed_type h rest]
      simp only [show ((0 : Byte)).val = 0 from rfl]
      simp
  | followUser u =>
      show SocialInstruction.decodeStream ((1 : Byte) :: (encodePubkey u ++ rest)) = _
      rw [SocialInstruction.decodeStream, decodePubkey_encodePubkey u rest]
      simp only [show ((1 : Byte)).val = 1 from rfl]
      simp
  | unfollowUser u =>
      show SocialInstruction.decodeStream ((2 : Byte) :: (encodePubkey u ++ rest)) = _
      rw [SocialInstruction.decodeStream, decodePubkey_encodePubkey u rest]
      simp only [show ((2 : Byte)).val = 2 from rfl]
      simp
  | queryFollower =>
      show SocialInstruction.decodeStream ((3 : Byte) :: rest) = _
      rw [SocialInstruction.decodeStream]
      simp only [show ((3 : Byte)).val = 3 from rfl]
      simp
  | postContent content =>
      show SocialInstruction.decodeStream ((4 : Byte) :: (encodeString content ++ rest)) = _
      rw [SocialInstruction.decodeStream, decodeString_encodeString content h rest]
      simp only [show ((4 : Byte)).val = 4 from rfl]
      simp
  | queryPosts =>
      show SocialInstruction.decodeStream ((5 : Byte) :: rest) = _
      rw [SocialInstruction.decodeStream]
      simp only [show ((5 : Byte)).val = 5 from rfl]
      simp

theorem instructionDecode_roundtrip (i : SocialInstruction) (h : i.wf) :
    SocialInstruction.decode i.encode = .ok i := by
  unfold SocialInstruction.decode decodeFull
  rw [← List.append_nil i.encode, instructionStream_roundtrip i h [],
    DecodeResult.bind_ok]

/-! ## SHA-256

Modelled from the spec: the hash primitive of the program-derived-address
construction (spec section 4.1), the standard FIPS 180-4 SHA-256 over byte
sequences. Bytes here are plain `Nat` values below 256; words are `Nat`
values reduced modulo `2 ^ 32`. -/

/-- Reduce to a 32-bit word. -/
def w32m (n : Nat) : Nat := n % 4294967296

/-- Rotate a 32-bit word right by `n` bits. -/
def rotr32 (x n : Nat) : Nat := w32m ((x >>> n) ||| (x <<< (32 - n)))

def bigS0 (x : Nat) : Nat := rotr32 x 2 ^^^ rotr32 x 13 ^^^ rotr32 x 22

def bigS1 (x : Nat) : Nat := rotr32 x 6 ^^^ rotr32 x 11 ^^^ rotr32 x 25

def smallS0 (x : Nat) : Nat := rotr32 x 7 ^^^ rotr32 x 18 ^^^ (x >>> 3)

def smallS1 (x : Nat) : Nat := rotr32 x 17 ^^^ rotr32 x 19 ^^^ (x >>> 10)

def chF (x y z : Nat) : Nat := (x &&& y) ^^^ ((x ^^^ 4294967295) &&& z)

def majF (x y z : Nat) : Nat := (x &&& y) ^^^ (x &&& z) ^^^ (y &&& z)

/-- The 64 SHA-256 round constants. -/
def sha256K : List Nat :=
  [1116352408, 1899447441, 3049323471, 3921009573, 961987163,
   1508970993, 2453635748, 2870763221, 3624381080, 310598401,
   607225278, 1426881987, 1925078388, 2162078206, 2614888103,
   3248222580, 3835390401, 4022224774, 264347078, 604807628,
   770255983, 1249150122, 1555081692, 1996064986, 2554220882,
   2821834349, 2952996808, 3210313671, 3336571891, 3584528711,
   113926993, 338241895, 666307205, 773529912, 1294757372,
   1396182291, 1695183700, 1986661051, 2177026350, 2456956037,
   2730485921, 2820302411, 3259730800, 3345764771, 3516065817,
   3600352804, 4094571909, 275423344, 430227734, 506948616,
   659060556, 883997877, 958139571, 1322822218, 1537002063,
   1747873779, 1955562222, 2024104815, 2227730452, 2361852424,
   2428436474, 2756734187, 3204031479, 3329325298]

/-- The SHA-256 initial hash state. -/
def sha256H0 : List Nat :=
  [1779033703, 3144134277, 1013904242, 2773480762,
   1359893119, 2600822924, 528734635, 1541459225]

/-- Big-endian encoding of `n` into `k` bytes. -/
def beBytes : Nat → Nat → List Nat
  | 0, _ => []
  | k + 1, n => beBytes k (n / 256) ++ [n % 256]

/-- Group a byte list into big-endian 32-bit words. -/
def toWordsBE : List Nat → List Nat
  | b0 :: b1 :: b2 :: b3 :: rest => (((b0 * 256 + b1) * 256 + b2) * 256 + b3) :: toWordsBE rest
  | _ => []

/-- Extend the 16-word message schedule by `fuel` further words. -/
def extendW : Nat → List Nat → List Nat
  | 0, w => w
  | fuel + 1, w =>
      let i := w.length
      let x := w32m (smallS1 (w.getD (i - 2) 0) + w.getD (i - 7) 0 +
        smallS0 (w.getD (i - 15) 0) + w.getD (i - 16) 0)
      extendW fuel (w ++ [x])

/-- One SHA-256 compression round. -/
def sha256Round (st : List Nat) (k w : Nat) : List Nat :=
  let a := st.getD 0 0
  let b := st.getD 1 0
  let c := st.getD 2 0
  let d := st.getD 3 0
  let e := st.getD 4 0
  let f := st.getD 5 0
  let g := st.getD 6 0
  let h := st.getD 7 0
  let t1 := w32m (h + bigS1 e + chF e f g + k + w)
  let t2 := w32m (bigS0 a + majF a b c)
  [w32m (t1 + t2), a, b, c, w32m (d + t1), e, f, g]

/-- Compress one 64-byte block into the hash state. -/
def sha256Compress (h : List Nat) (block : List Nat) : List Nat :=
  let w := extendW 48 (toWordsBE block)
  let st := (sha256K.zip w).foldl (fun st kw => sha256Round st kw.1 kw.2) h
  List.zipWith (fun x y => w32m (x + y)) h st

/-- Append the SHA-256 padding: 0x80, zeros, and the bit length in 8 bytes. -/
def sha256Pad (msg : List Nat) : List Nat :=
  let len := msg.length
  msg ++ [0x80] ++ List.replicate ((119 - len % 64) % 64) 0 ++ beBytes 8 (8 * len)

/-- Split into 64-byte chunks; `fuel` bounds the recursion. -/
def chunks64 : Nat → List Nat → List (List Nat)
  | 0, _ => []
  | _ + 1, [] => []
  | fuel + 1, l => l.take 64 :: chunks64 fuel (l.drop 64)

/-- SHA-256 of a byte sequence, as 32 bytes. -/
def sha256 (msg : List Nat) : List Nat :=
  let padded := sha256Pad msg
  ((chunks64 padded.length padded).foldl sha256Compress sha256H0).flatMap (beBytes 4)

/-! ## Ed25519 decompression validity

Modelled from the spec: the curve validity primitive of the derivation
(spec section 4.1) — an address is on-curve when its bytes decompress to a
point of the Ed25519 curve, that is, when with `y` the low 255 bits read
little-endian, `(y ^ 2 - 1) / (d * y ^ 2 + 1)` is a square modulo
`2 ^ 255 - 19`. -/

/-- The Ed25519 field prime `2 ^ 255 - 19`. -/
def ed25519P : Nat := 2 ^ 255 - 19

/-- The Ed25519 curve constant `d = -121665 / 121666` in the field. -/
def ed25519D : Nat :=
  37095705934669439343138083508754565189542113879843219016388785533085940283555

/-- Modular exponentiation by repeated squaring; `fuel` bounds recursion. -/
def powModF : Nat → Nat → Nat → Nat → Nat
  | 0, _, _, m => 1 % m
  | fuel + 1, b, e, m =>
      if e = 0 then 1 % m
      else
        let r := powModF fuel (b * b % m) (e / 2) m
        if e % 2 = 1 then b % m * r % m else r

def powMod (b e m : Nat) : Nat := powModF 300 b e m

/-- Whether `z` is a square in the Ed25519 field (Euler criterion). -/
def isFieldSquare (z : Nat) : Bool :=
  z % ed25519P = 0 || powMod z ((ed25519P - 1) / 2) ed25519P = 1

/-- Little-endian byte interpretation. -/
def leBytesToNat (l : List Nat) : Nat := l.foldr (fun b acc => b + 256 * acc) 0

/-- Whether 32 bytes decompress to an Ed25519 curve point. -/
def bytesAreCurvePoint (bytes : List Nat) : Bool :=
  let y := leBytesToNat bytes % 2 ^ 255
  let y2 := y * y % ed25519P
  let u := (y2 + ed25519P - 1) % ed25519P
  let v := (ed25519D * y2 + 1) % ed25519P
  if v = 0 then u = 0 else isFieldSquare (u * powMod v (ed25519P - 2) ed25519P % ed25519P)

/-! ## Program-derived addresses

Modelled from the spec: the derivation contract of spec section 4.1, the
program-derived-address convention of the target ledger — candidate =
sha256(seeds, bump byte, program id, the marker "ProgramDerivedAddress");
the bump is searched from 255 downward; an on-curve candidate is rejected
(InvalidSeeds) and the search continues; when the loop exhausts, the
find operation has no result and the caller panics (an expect call), it
does not return an error value. -/

/-- The ASCII bytes of the marker "ProgramDerivedAddress". -/
def pdaMarker : List Nat :=
  [0x50, 0x72, 0x6F, 0x67, 0x72, 0x61, 0x6D, 0x44, 0x65, 0x72, 0x69, 0x76,
   0x65, 0x64, 0x41, 0x64, 0x64, 0x72, 0x65, 0x73, 0x73]

/-- Result of create_program_address: an address, or one of its two
defined errors. -/
inductive CpaResult where
  | ok (address : List Nat)
  | maxSeedLengthExceeded
  | invalidSeeds
deriving DecidableEq

/-- create_program_address, parametric in the on-curve test: reject long or
many seeds, hash, and reject candidates that are on the curve. -/
def createProgramAddressWith (onCurve : List Nat → Bool) (seeds : List (List Nat))
    (program_id : List Nat) : CpaResult :=
  if 16 < seeds.length then .maxSeedLengthExceeded
  else if seeds.any (fun s => 32 < s.length) then .maxSeedLengthExceeded
  else
    let hash := sha256 (seeds.flatten ++ program_id ++ pdaMarker)
    if onCurve hash then .invalidSeeds else .ok hash

/-- The bump candidates tried by try_find_program_address: 255 down to 1
(the loop runs u8::MAX times starting at u8::MAX). -/
def bumpList : List Nat := (List.range 255).map (fun i => 255 - i)

/-- The search loop of try_find_program_address: first bump whose candidate
is accepted; an InvalidSeeds rejection continues, any other error stops. -/
def tryFindLoop (onCurve : List Nat → Bool) (seeds : List (List Nat))
    (program_id : List Nat) : List Nat → Option (List Nat × Nat)
  | [] => none
  | bump :: rest =>
    match createProgramAddressWith onCurve (seeds ++ [[bump]]) program_id with
    | .ok addr => some (addr, bump)
    | .invalidSeeds => tryFindLoop onCurve seeds program_id rest
    | .maxSeedLengthExceeded => none

/-- try_find_program_address, parametric in the on-curve test. -/
def tryFindProgramAddressWith (onCurve : List Nat → Bool) (seeds : List (List Nat))
    (program_id : List Nat) : Option (List Nat × Nat) :=
  tryFindLoop onCurve seeds program_id bumpList

/-- Outcome of find_program_address: a found address and bump, or the
panic of its expect call when the search is exhausted. -/
inductive FindResult where
  | found (address : List Nat) (bump : Nat)
  | panicked
deriving DecidableEq

/-- find_program_address: unwrap the search result, panicking on None. -/
def findProgramAddressWith (onCurve : List Nat → Bool) (seeds : List (List Nat))
    (program_id : List Nat) : FindResult :=
  match tryFindProgramAddressWith onCurve seeds program_id with
  | some (a, b) => .found a b
  | none => .panicked

/-- find_program_address with the real Ed25519 on-curve test. -/
def findProgramAddress (seeds : List (List Nat)) (program_id : List Nat) : FindResult :=
  findProgramAddressWith bytesAreCurvePoint seeds program_id

/-- get_pda (src/main.rs): the derived address of find_program_address,
bump discarded; none models the panic on an exhausted search. -/
def get_pda (program_id : List Nat) (seed : List (List Nat)) : Option (List Nat) :=
  match findProgramAddress seed program_id with
  | .found a _ => some a
  | .panicked => none

/-- The ASCII bytes of USER_PROFILE_SEED = "profile". -/
def USER_PROFILE_SEED : List Nat := [0x70, 0x72, 0x6F, 0x66, 0x69, 0x6C, 0x65]

/-- The ASCII bytes of USER_POST_SEED = "post". -/
def USER_POST_SEED : List Nat := [0x70, 0x6F, 0x73, 0x74]

/-! ## Concrete sample values used by witnesses -/

/-- The string "hello". -/
def helloStr : RString := ⟨[0x68, 0x65, 0x6C, 0x6C, 0x6F], by decide⟩

/-- The string "world". -/
def worldStr : RString := ⟨[0x77, 0x6F, 0x72, 0x6C, 0x64], by decide⟩

/-- A sample address: 32 bytes 0xAA. -/
def pkA : Pubkey := ⟨List.replicate 32 0xAA, by decide⟩

/-- A sample address: 32 bytes 0xBB. -/
def pkB : Pubkey := ⟨List.replicate 32 0xBB, by decide⟩

/-! ## Operation lemmas -/

theorem follow_follows (p : UserProfile) (a : Pubkey) :
    (p.follow a).follows = p.follows ++ [a] := rfl

theorem follow_data_len (p : UserProfile) (a : Pubkey) :
    (p.follow a).data_len = (p.follows ++ [a]).length % 2 ^ 16 := rfl

theorem un_follow_follows (p : UserProfile) (a : Pubkey) :
    (p.un_follow a).follows = p.follows.filter (fun x => x != a) := rfl

theorem un_follow_data_len (p : UserProfile) (a : Pubkey) :
    (p.un_follow a).data_len = (p.follows.filter (fun x => x != a)).length % 2 ^ 16 := rfl

theorem un_follow_not_mem (p : UserProfile) (a : Pubkey) (ha : a ∉ p.follows)
    (hlen : p.data_len = p.follows.length % 2 ^ 16) :
    p.un_follow a = p := by
  have hf : p.follows.filter (fun x => x != a) = p.follows := by
    apply List.filter_eq_self.mpr
    intro x hx
    have : x ≠ a := fun h => ha (h ▸ hx)
    simpa using this
  cases p with
  | mk d f =>
      simp only [UserProfile.un_follow, UserProfile.mk.injEq] at *
      exact ⟨by rw [hf, ← hlen], hf⟩

/-! ## Claims -/

/-- C1: decoding the bytes produced by encoding yields exactly the original
value, for every representable SocialInstruction, UserProfile, UserPost and
Post (representable: integer fields within their Rust widths, sequence and
string lengths within the u32 length prefix). -/
theorem C1_roundtrip :
    (∀ i : SocialInstruction, i.wf → SocialInstruction.decode i.encode = .ok i) ∧
    (∀ u : UserProfile, u.data_len < 2 ^ 16 → u.follows.length < 2 ^ 32 →
      UserProfile.decode u.encode = .ok u) ∧
    (∀ u : UserPost, u.post_count < 2 ^ 64 → u.posts.length < 2 ^ 32 →
      (∀ p ∈ u.posts, p.content.val.length < 2 ^ 32 ∧ p.timestamp < 2 ^ 64) →
      UserPost.decode u.encode = .ok u) ∧
    (∀ p : Post, p.content.val.length < 2 ^ 32 → p.timestamp < 2 ^ 64 →
      Post.decode p.encode = .ok p) :=
  ⟨fun i h => instructionDecode_roundtrip i h,
   fun u hd hf => userProfileDecode_roundtrip u hd hf,
   fun u hc hl hp => userPostDecode_roundtrip u hc hl hp,
   fun p hc ht => postDecode_roundtrip p hc ht⟩

/-- Witness for C1 at concrete values of all four types. -/
theorem C1_roundtrip_witness :
    SocialInstruction.decode (SocialInstruction.encode (.initializeUser helloStr)) =
      .ok (.initializeUser helloStr) ∧
    UserProfile.decode (UserProfile.encode ⟨1, [pkA]⟩) = .ok ⟨1, [pkA]⟩ ∧
    UserPost.decode (UserPost.encode ⟨1, [⟨helloStr, 42⟩]⟩) = .ok ⟨1, [⟨helloStr, 42⟩]⟩ ∧
    Post.decode (Post.encode ⟨worldStr, 7⟩) = .ok ⟨worldStr, 7⟩ :=
  ⟨C1_roundtrip.1 _ (by decide : helloStr.val.length < 2 ^ 32),
   C1_roundtrip.2.1 _ (by decide) (by decide),
   C1_roundtrip.2.2.1 _ (by decide) (by decide) (by decide),
   C1_roundtrip.2.2.2 _ (by decide) (by decide)⟩

/-- C2: follow appends to the end of follows; un_follow keeps exactly the
entries different from the target, in their original relative order (a
sublist of the original); following two distinct addresses from an empty
profile then unfollowing the first leaves the second; unfollowing an
absent address on a profile whose data_len is consistent changes nothing. -/
theorem C2_follow_unfollow :
    (∀ (p : UserProfile) (a : Pubkey), (p.follow a).follows = p.follows ++ [a]) ∧
    (∀ (p : UserProfile) (a : Pubkey),
      ((p.un_follow a).follows.Sublist p.follows ∧
       ∀ x : Pubkey, x ∈ (p.un_follow a).follows ↔ (x ∈ p.follows ∧ x ≠ a))) ∧
    (∀ a b : Pubkey, a ≠ b →
      ((UserProfile.new.follow a).follow b).follows = [a, b] ∧
      (((UserProfile.new.follow a).follow b).un_follow a).follows = [b]) ∧
    (∀ (p : UserProfile) (a : Pubkey), a ∉ p.follows →
      p.data_len = p.follows.length % 2 ^ 16 → p.un_follow a = p) := by
  refine ⟨fun p a => follow_follows p a, fun p a => ?_, fun a b hab => ?_, un_follow_not_mem⟩
  · constructor
    · rw [un_follow_follows]
      exact List.filter_sublist p.follows
    · intro x
      rw [un_follow_follows]
      simp [List.mem_filter]
  · constructor
    · rw [follow_follows, follow_follows]
      rfl
    · rw [un_follow_follows, follow_follows, follow_follows]
      show ((([] : List Pubkey) ++ [a]) ++ [b]).filter (fun x => x != a) = [b]
      have h1 : (a != a) = false := by simp
      have h2 : (b != a) = true := by simpa using fun h => hab h.symm
      simp [h1, h2]

/-- Witness for C2 at concrete addresses. -/
theorem C2_follow_unfollow_witness :
    ((UserProfile.new.follow pkA).follow pkB).follows = [pkA, pkB] ∧
    (((UserProfile.new.follow pkA).follow pkB).un_follow pkA).follows = [pkB] ∧
    UserProfile.un_follow ⟨1, [pkB]⟩ pkA = ⟨1, [pkB]⟩ :=
  ⟨(C2_follow_unfollow.2.2.1 pkA pkB (by decide)).1,
   (C2_follow_unfollow.2.2.1 pkA pkB (by decide)).2,
   C2_follow_unfollow.2.2.2 ⟨1, [pkB]⟩ pkA (by decide) (by decide)⟩

/-- C3: the encoded leading tag is the 0-based declaration order of the
variant, whatever the payload: InitializeUser 0, FollowUser 1,
UnfollowUser 2, QueryFollower 3, PostContent 4, QueryPosts 5; the two
query variants encode as the tag alone, with an empty body. -/
theorem C3_tags :
    (∀ s : RString, (SocialInstruction.encode (.initializeUser s)).head? = some 0) ∧
    (∀ u : Pubkey, (SocialInstruction.encode (.followUser u)).head? = some 1) ∧
    (∀ u : Pubkey, (SocialInstruction.encode (.unfollowUser u)).head? = some 2) ∧
    SocialInstruction.encode .queryFollower = [3] ∧
    (∀ c : RString, (SocialInstruction.encode (.postContent c)).head? = some 4) ∧
    SocialInstruction.encode .queryPosts = [5] :=
  ⟨fun _ => rfl, fun _ => rfl, fun _ => rfl, rfl, fun _ => rfl, rfl⟩

theorem follow_from_65535 (p : UserProfile) (a : Pubkey) (h : p.follows.length = 65535) :
    (p.follow a).data_len ≠ (p.follow a).follows.length := by
  rw [follow_data_len, follow_follows, List.length_append, h, List.length_singleton]
  norm_num

/-- C5 counterexample: a UserProfile with 65535 follows and consistent
data_len; after one more follow, data_len is 65536 mod 2 to the 16, that
is 0, while follows holds 65536 entries — the claimed invariant is not
preserved by the follow operation. -/
theorem C5_counterexample :
    (UserProfile.mk 65535 (List.replicate 65535 pkA)).data_len =
      (UserProfile.mk 65535 (List.replicate 65535 pkA)).follows.length ∧
    ((UserProfile.mk 65535 (List.replicate 65535 pkA)).follow pkA).data_len ≠
      ((UserProfile.mk 65535 (List.replicate 65535 pkA)).follow pkA).follows.length := by
  constructor
  · show (65535 : Nat) = (List.replicate 65535 pkA).length
    rw [List.length_replicate]
  · exact follow_from_65535 _ pkA (List.length_replicate 65535 pkA)

/-- C5 amended: the invariant that holds on new and is preserved by every
operation is data_len = follows.length mod 2 to the 16; it coincides with
the plain length exactly while follows has fewer than 2 to the 16 entries. -/
theorem C5_data_len_mod_invariant :
    UserProfile.new.data_len = UserProfile.new.follows.length % 2 ^ 16 ∧
    (∀ (p : UserProfile) (a : Pubkey),
      (p.follow a).data_len = (p.follow a).follows.length % 2 ^ 16 ∧
      (p.un_follow a).data_len = (p.un_follow a).follows.length % 2 ^ 16) ∧
    (∀ p : UserProfile, p.follows.length < 2 ^ 16 →
      p.data_len = p.follows.length % 2 ^ 16 → p.data_len = p.follows.length) := by
  refine ⟨rfl, fun p a => ⟨rfl, rfl⟩, fun p hlt hmod => ?_⟩
  rw [hmod, Nat.mod_eq_of_lt hlt]

/-- Witness for C5 amended at a concrete profile below the u16 bound. -/
theorem C5_data_len_mod_invariant_witness :
    (UserProfile.mk 1 [pkA]).data_len = (UserProfile.mk 1 [pkA]).follows.length :=
  C5_data_len_mod_invariant.2.2 ⟨1, [pkA]⟩ (by decide) (by decide)

/-- C6: post appends to the end of posts, leaving earlier entries in place,
and post_count equals the resulting length (the usize-to-u64 cast is exact
for any Rust-representable length); posting hello then world from an empty
record yields those two posts in order with post_count 2. -/
theorem C6_posts :
    (∀ (u : UserPost) (p : Post), (u.post p).posts = u.posts ++ [p]) ∧
    (∀ (u : UserPost) (p : Post), u.posts.length + 1 < 2 ^ 64 →
      (u.post p).post_count = (u.post p).posts.length) ∧
    (∀ t1 t2 : Nat,
      ((UserPost.new.post ⟨helloStr, t1⟩).post ⟨worldStr, t2⟩).posts =
        [⟨helloStr, t1⟩, ⟨worldStr, t2⟩] ∧
      ((UserPost.new.post ⟨helloStr, t1⟩).post ⟨worldStr, t2⟩).post_count = 2) := by
  refine ⟨fun u p => rfl, fun u p h => ?_, fun t1 t2 => ⟨rfl, rfl⟩⟩
  show (u.posts ++ [p]).length % 2 ^ 64 = (u.posts ++ [p]).length
  have : (u.posts ++ [p]).length = u.posts.length + 1 := by simp
  rw [this, Nat.mod_eq_of_lt h]

/-- Witness for C6 at the hello-world scenario. -/
theorem C6_posts_witness :
    ((UserPost.new.post ⟨helloStr, 1⟩).post ⟨worldStr, 2⟩).posts =
      [⟨helloStr, 1⟩, ⟨worldStr, 2⟩] ∧
    ((UserPost.new.post ⟨helloStr, 1⟩).post ⟨worldStr, 2⟩).post_count =
      ((UserPost.new.post ⟨helloStr, 1⟩).post ⟨worldStr, 2⟩).posts.length :=
  ⟨(C6_posts.2.2 1 2).1,
   C6_posts.2.1 (UserPost.new.post ⟨helloStr, 1⟩) ⟨worldStr, 2⟩ (by decide)⟩

/-- C9: both mutating UserProfile operations store follows.length reduced
modulo 2 to the 16 into data_len (the as-u16 cast); when the resulting
follows holds more than 65535 entries the stored value is not the true
length. -/
theorem C9_data_len_truncation :
    (∀ (p : UserProfile) (a : Pubkey),
      (p.follow a).data_len = (p.follow a).follows.length % 65536 ∧
      (p.un_follow a).data_len = (p.un_follow a).follows.length % 65536) ∧
    (∀ (p : UserProfile) (a : Pubkey), 65535 < (p.follow a).follows.length →
      (p.follow a).data_len ≠ (p.follow a).follows.length) ∧
    (∀ (p : UserProfile) (a : Pubkey), 65535 < (p.un_follow a).follows.length →
      (p.un_follow a).data_len ≠ (p.un_follow a).follows.length) := by
  have hmod : ∀ (p : UserProfile) (a : Pubkey),
      (p.follow a).data_len = (p.follow a).follows.length % 65536 ∧
      (p.un_follow a).data_len = (p.un_follow a).follows.length % 65536 :=
    fun p a => ⟨rfl, rfl⟩
  refine ⟨hmod, fun p a h => ?_, fun p a h => ?_⟩
  · have := (hmod p a).1
    omega
  · have := (hmod p a).2
    omega

theorem follow_from_65536 (p : UserProfile) (a : Pubkey) (h : p.follows.length = 65536) :
    65535 < (p.follow a).follows.length := by
  rw [follow_follows, List.length_append, h, List.length_singleton]
  omega

/-- Witness for C9: one more follow on a profile already holding 65536
entries stores a truncated data_len. -/
theorem C9_data_len_truncation_witness :
    ((UserProfile.mk 0 (List.replicate 65536 pkA)).follow pkA).data_len ≠
      ((UserProfile.mk 0 (List.replicate 65536 pkA)).follow pkA).follows.length :=
  C9_data_len_truncation.2.1 ⟨0, List.replicate 65536 pkA⟩ pkA
    (follow_from_65536 _ pkA (List.length_replicate 65536 pkA))

/-- C10: when the address is absent and data_len is consistent, follow then
un_follow restores the profile exactly; when the address is already
present the round trip fails, because un_follow also removes the
pre-existing occurrences. -/
theorem C10_follow_then_unfollow :
    (∀ (p : UserProfile) (a : Pubkey), a ∉ p.follows →
      p.data_len = p.follows.length % 2 ^ 16 → (p.follow a).un_follow a = p) ∧
    ((UserProfile.mk 1 [pkA]).follow pkA).un_follow pkA ≠ UserProfile.mk 1 [pkA] := by
  constructor
  · intro p a ha hlen
    have hfilter : (p.follows ++ [a]).filter (fun x => x != a) = p.follows := by
      rw [List.filter_append]
      have h1 : [a].filter (fun x => x != a) = [] := by simp
      have h2 : p.follows.filter (fun x => x != a) = p.follows := by
        apply List.filter_eq_self.mpr
        intro x hx
        have hxa : x ≠ a := fun h => ha (h ▸ hx)
        simpa using hxa
      rw [h1, h2, List.append_nil]
    cases p with
    | mk d f =>
        simp only [UserProfile.un_follow, UserProfile.follow] at *
        simp only [UserProfile.mk.injEq]
        exact ⟨by rw [hfilter, ← hlen], hfilter⟩
  · decide

/-- Witness for C10 on the empty profile. -/
theorem C10_follow_then_unfollow_witness :
    (UserProfile.new.follow pkA).un_follow pkA = UserProfile.new :=
  C10_follow_then_unfollow.1 UserProfile.new pkA (by decide) (by decide)

/-- Whether a create_program_address outcome carries an address. -/
def CpaResult.isOk : CpaResult → Bool
  | .ok _ => true
  | .maxSeedLengthExceeded => false
  | .invalidSeeds => false

set_option maxRecDepth 100000 in
/-- C4 counterexample: under an on-curve test that accepts every candidate
(the exhaustion scenario), find_program_address ends in its panic, at the
concrete seeds and program id below; no error value reaches the caller. -/
theorem C4_counterexample :
    findProgramAddressWith (fun _ => true) [[0]] (List.replicate 32 0) = .panicked := by
  decide

/-- C4 amended: when no bump candidate yields an accepted (off-curve)
address, the search loop is exhausted and find_program_address panics in
its expect call; it does not return a DerivationExhausted error value —
no such error type exists in the code. -/
theorem C4_exhaustion_panics (onCurve : List Nat → Bool) (seeds : List (List Nat))
    (pid : List Nat)
    (h : ∀ bump ∈ bumpList,
      (createProgramAddressWith onCurve (seeds ++ [[bump]]) pid).isOk = false) :
    findProgramAddressWith onCurve seeds pid = .panicked := by
  unfold findProgramAddressWith tryFindProgramAddressWith
  suffices hs : ∀ l : List Nat, (∀ bump ∈ l,
      (createProgramAddressWith onCurve (seeds ++ [[bump]]) pid).isOk = false) →
      tryFindLoop onCurve seeds pid l = none by
    rw [hs bumpList h]
  intro l
  induction l with
  | nil => intro _; rfl
  | cons b rest ih =>
      intro hl
      rw [tryFindLoop]
      cases hcb : createProgramAddressWith onCurve (seeds ++ [[b]]) pid with
      | ok a =>
          exact absurd (hl b (by simp)) (by simp [hcb, CpaResult.isOk])
      | invalidSeeds =>
          exact ih (fun x hx => hl x (by simp [hx]))
      | maxSeedLengthExceeded => rfl

set_option maxRecDepth 100000 in
/-- Witness for C4 amended: the all-on-curve test with empty seeds. -/
theorem C4_exhaustion_panics_witness :
    findProgramAddressWith (fun _ => true) [] [] = .panicked :=
  C4_exhaustion_panics (fun _ => true) [] [] (by decide)

theorem decodeString_truncated (n : Nat) (r : List Byte) (hlt : r.length < n)
    (hn : n < 2 ^ 32) :
    decodeString (encodeLE 4 n ++ r) = .error .TruncatedInput := by
  unfold decodeString
  rw [decodeLE_encodeLE_of_lt (by rw [pow256_4]; exact hn), DecodeResult.bind_ok]
  show (readBytes n r).bind _ = _
  unfold readBytes
  rw [if_pos hlt]
  rfl

theorem decodeString_invalid (bs : List Byte) (hv : utf8Valid bs = false)
    (hn : bs.length < 2 ^ 32) :
    decodeString (encodeLE 4 bs.length ++ bs) = .error .InvalidEncoding := by
  unfold decodeString
  rw [decodeLE_encodeLE_of_lt (by rw [pow256_4]; exact hn), DecodeResult.bind_ok]
  show (readBytes bs.length bs).bind _ = _
  unfold readBytes
  rw [if_neg (by omega), List.take_length, List.drop_length, DecodeResult.bind_ok]
  show (if h : utf8Valid bs = true then DecodeResult.ok ((⟨bs, h⟩ : RString), ([] : List Byte))
    else DecodeResult.error DecodeError.InvalidEncoding) = _
  rw [dif_neg (by simp [hv])]

/-- C7: a PostContent buffer whose declared text length exceeds the bytes
that remain decodes to TruncatedInput; any leading tag of 6 or more decodes
to UnknownVariant; a PostContent whose declared bytes are not valid UTF-8
decodes to InvalidEncoding; and decoding is total — every buffer yields
either a value or an error, never a partial result. -/
theorem C7_decode_errors :
    (∀ (n : Nat) (r : List Byte), r.length < n → n < 2 ^ 32 →
      SocialInstruction.decode ((4 : Byte) :: (encodeLE 4 n ++ r)) =
        .error .TruncatedInput) ∧
    (∀ (t : Byte) (r : List Byte), 6 ≤ t.val →
      SocialInstruction.decode (t :: r) = .error .UnknownVariant) ∧
    (∀ bs : List Byte, utf8Valid bs = false → bs.length < 2 ^ 32 →
      SocialInstruction.decode ((4 : Byte) :: (encodeLE 4 bs.length ++ bs)) =
        .error .InvalidEncoding) ∧
    (∀ s : List Byte, (∃ i, SocialInstruction.decode s = .ok i) ∨
      (∃ e, SocialInstruction.decode s = .error e)) := by
  refine ⟨fun n r hlt hn => ?_, fun t r ht => ?_, fun bs hv hn => ?_, fun s => ?_⟩
  · unfold SocialInstruction.decode decodeFull
    rw [SocialInstruction.decodeStream, decodeString_truncated n r hlt hn]
    simp only [show ((4 : Byte)).val = 4 from rfl]
    simp
  · unfold SocialInstruction.decode decodeFull
    rw [SocialInstruction.decodeStream]
    rw [if_neg (by omega), if_neg (by omega), if_neg (by omega), if_neg (by omega),
      if_neg (by omega), if_neg (by omega)]
    rfl
  · unfold SocialInstruction.decode decodeFull
    rw [SocialInstruction.decodeStream, decodeString_invalid bs hv hn]
    simp only [show ((4 : Byte)).val = 4 from rfl]
    simp
  · cases h : SocialInstruction.decode s with
    | ok v => exact .inl ⟨v, rfl⟩
    | error e => exact .inr ⟨e, rfl⟩

/-- Witness for C7 at concrete malformed buffers. -/
theorem C7_decode_errors_witness :
    SocialInstruction.decode ((4 : Byte) :: encodeLE 4 5) = .error .TruncatedInput ∧
    SocialInstruction.decode [6] = .error .UnknownVariant ∧
    SocialInstruction.decode ((4 : Byte) :: (encodeLE 4 1 ++ [⟨0xFF, by omega⟩])) =
      .error .InvalidEncoding := by
  refine ⟨?_, ?_, ?_⟩
  · have := C7_decode_errors.1 5 [] (by decide) (by decide)
    simpa using this
  · exact C7_decode_errors.2.1 6 [] (by decide)
  · exact C7_decode_errors.2.2.1 [⟨0xFF, by omega⟩] (by decide) (by decide)

set_option maxRecDepth 1000000 in
/-- C8: address derivation is a pure function of the program id and seeds —
the same inputs always give the same result — and for the fixed 32-byte
program id of ones and user identity of twos, the profile-seed address
differs from the post-seed address. -/
theorem C8_pda_deterministic_and_distinct :
    (∀ (p : List Nat) (s : List (List Nat)), get_pda p s = get_pda p s) ∧
    get_pda (List.replicate 32 1) [List.replicate 32 2, USER_PROFILE_SEED] ≠
      get_pda (List.replicate 32 1) [List.replicate 32 2, USER_POST_SEED] :=
  ⟨fun _ _ => rfl, by decide⟩

end Social
